import Mathlib

/-!
Shallow embedding of `src/edb/server/server.py` (the EdgeDB server-process
orchestrator): backend address resolution (`Server._get_pgaddr`), auth-rule
resolution (`Server._populate_sys_auth`, `Server.get_auth_method`), compiler
worker provisioning (`Server.new_compiler`), and dynamic/static port lifecycle
(`Server._start_portconf`, `Server._stop_portconf`, `Server.stop`).

Python exceptions are modelled with `Except`; the async functions in the
source are sequential on one cooperative scheduler, so they are embedded as
pure state-passing functions that additionally return a trace of the calls
they perform (listener `start()`/`stop()` invocations and log statements).
-/

/-- Decidable equality for `Except`, used both by derived instances below and
to evaluate theorems about `Except`-valued results on concrete inputs. -/
instance {ε α : Type} [DecidableEq ε] [DecidableEq α] : DecidableEq (Except ε α) :=
  fun x y =>
    match x, y with
    | .ok a, .ok b =>
      if h : a = b then .isTrue (congrArg Except.ok h)
      else .isFalse (fun hh => h (Except.ok.inj hh))
    | .error a, .error b =>
      if h : a = b then .isTrue (congrArg Except.error h)
      else .isFalse (fun hh => h (Except.error.inj hh))
    | .ok _, .error _ => .isFalse (fun hh => Except.noConfusion hh)
    | .error _, .ok _ => .isFalse (fun hh => Except.noConfusion hh)

/-- Python exception classes that the address-resolution path can raise.
`configurationError` stands for `edb.errors.ConfigurationError`; it is part of
the model so theorems can talk about it, whether or not the code raises it. -/
inductive PyErr where
  | typeError
  | indexError
  | valueError (msg : String)
  | configurationError
deriving DecidableEq, Repr

/-- Value of a hexadecimal digit character, if it is one. -/
def hexVal (c : Char) : Option Nat :=
  if '0' ≤ c ∧ c ≤ '9' then some (c.toNat - '0'.toNat)
  else if 'a' ≤ c ∧ c ≤ 'f' then some (c.toNat - 'a'.toNat + 10)
  else if 'A' ≤ c ∧ c ≤ 'F' then some (c.toNat - 'A'.toNat + 10)
  else none

/-- UTF-8 encoding of one character (the byte values, as `Nat`s). -/
def charUtf8Bytes (c : Char) : List Nat :=
  let n := c.toNat
  if n < 0x80 then [n]
  else if n < 0x800 then [0xC0 + n / 64, 0x80 + n % 64]
  else if n < 0x10000 then [0xE0 + n / 4096, 0x80 + (n / 64) % 64, 0x80 + n % 64]
  else [0xF0 + n / 262144, 0x80 + (n / 4096) % 64, 0x80 + (n / 64) % 64, 0x80 + n % 64]

/-- Byte sequence produced by `urllib.parse.unquote_to_bytes`: each `%XX`
escape with two hex digits becomes the byte `XX`; a `%` not followed by two
hex digits stays literal; all other characters contribute their UTF-8 bytes. -/
def unquoteBytesAux : Nat → List Char → List Nat
  | 0, _ => []
  | _, [] => []
  | fuel + 1, '%' :: c1 :: c2 :: rest =>
      match hexVal c1, hexVal c2 with
      | some h1, some h2 => (16 * h1 + h2) :: unquoteBytesAux fuel rest
      | _, _ => '%'.toNat :: unquoteBytesAux fuel (c1 :: c2 :: rest)
  | fuel + 1, c :: rest => charUtf8Bytes c ++ unquoteBytesAux fuel rest

/-- Entry point for `unquoteBytesAux`; every step consumes at least one
character, so fuel equal to the length is enough. -/
def unquoteBytes (l : List Char) : List Nat := unquoteBytesAux l.length l

/-- UTF-8 decoding with replacement (`errors='replace'`): a valid sequence
becomes its character, an invalid byte becomes U+FFFD and one byte is
consumed. -/
def utf8DecodeReplaceAux : Nat → List Nat → List Char
  | 0, _ => []
  | _, [] => []
  | fuel + 1, b1 :: rest =>
    if b1 < 0x80 then Char.ofNat b1 :: utf8DecodeReplaceAux fuel rest
    else if 0xC2 ≤ b1 ∧ b1 ≤ 0xDF then
      match rest with
      | b2 :: rest2 =>
        if 0x80 ≤ b2 ∧ b2 ≤ 0xBF then
          Char.ofNat ((b1 - 0xC0) * 64 + (b2 - 0x80)) :: utf8DecodeReplaceAux fuel rest2
        else '�' :: utf8DecodeReplaceAux fuel (b2 :: rest2)
      | [] => ['�']
    else if 0xE0 ≤ b1 ∧ b1 ≤ 0xEF then
      match rest with
      | b2 :: b3 :: rest3 =>
        if (0x80 ≤ b2 ∧ b2 ≤ 0xBF) ∧ (0x80 ≤ b3 ∧ b3 ≤ 0xBF) ∧
            (b1 ≠ 0xE0 ∨ 0xA0 ≤ b2) ∧ (b1 ≠ 0xED ∨ b2 ≤ 0x9F) then
          Char.ofNat ((b1 - 0xE0) * 4096 + (b2 - 0x80) * 64 + (b3 - 0x80)) ::
            utf8DecodeReplaceAux fuel rest3
        else '�' :: utf8DecodeReplaceAux fuel (b2 :: b3 :: rest3)
      | [b2] => '�' :: utf8DecodeReplaceAux fuel [b2]
      | [] => ['�']
    else if 0xF0 ≤ b1 ∧ b1 ≤ 0xF4 then
      match rest with
      | b2 :: b3 :: b4 :: rest4 =>
        if (0x80 ≤ b2 ∧ b2 ≤ 0xBF) ∧ (0x80 ≤ b3 ∧ b3 ≤ 0xBF) ∧
            (0x80 ≤ b4 ∧ b4 ≤ 0xBF) ∧
            (b1 ≠ 0xF0 ∨ 0x90 ≤ b2) ∧ (b1 ≠ 0xF4 ∨ b2 ≤ 0x8F) then
          Char.ofNat ((b1 - 0xF0) * 262144 + (b2 - 0x80) * 4096 +
              (b3 - 0x80) * 64 + (b4 - 0x80)) :: utf8DecodeReplaceAux fuel rest4
        else '�' :: utf8DecodeReplaceAux fuel (b2 :: b3 :: b4 :: rest4)
      | [b2, b3] => '�' :: utf8DecodeReplaceAux fuel [b2, b3]
      | [b2] => '�' :: utf8DecodeReplaceAux fuel [b2]
      | [] => ['�']
    else '�' :: utf8DecodeReplaceAux fuel rest

/-- Entry point for `utf8DecodeReplaceAux`; every step consumes at least one
byte, so fuel equal to the length is enough. -/
def utf8DecodeReplace (l : List Nat) : List Char := utf8DecodeReplaceAux l.length l

/-- `urllib.parse.unquote` with the default `encoding='utf-8',
errors='replace'`: replace `%XX` escapes by their bytes and decode. -/
def pyUnquote (s : String) : String :=
  String.mk (utf8DecodeReplace (unquoteBytes s.data))

/-- Python `s.split(sep)` for a one-character separator, over char lists
(`''.split(sep)` is `['']`, separators at the ends produce empty parts). -/
def splitOnCharList (sep : Char) : List Char → List (List Char)
  | [] => [[]]
  | c :: rest =>
    if c = sep then [] :: splitOnCharList sep rest
    else
      match splitOnCharList sep rest with
      | [] => [[c]]
      | g :: gs => (c :: g) :: gs

/-- Python `s.split(sep, 1)` for a one-character separator: the parts before
and after the first occurrence, or `none` when the separator is absent. -/
def splitFirstCharList (sep : Char) : List Char → Option (List Char × List Char)
  | [] => none
  | c :: rest =>
    if c = sep then some ([], rest)
    else (splitFirstCharList sep rest).map (fun p => (c :: p.1, p.2))

/-- Python `s.replace('+', ' ')`. -/
def plusToSpace (l : List Char) : List Char :=
  l.map (fun c => if c = '+' then ' ' else c)

/-- One iteration of the `parse_qsl` loop body on a `&`-separated field: a
field without `=` raises `ValueError` in strict mode, a field with an empty
value is dropped (`keep_blank_values=False`), and otherwise the name and
value get `+`-to-space replacement and `%XX` unquoting. -/
def parse_qsl_step (acc : Except PyErr (List (String × String)))
    (nameValue : List Char) : Except PyErr (List (String × String)) :=
  match acc with
  | .error e => .error e
  | .ok r =>
    match splitFirstCharList '=' nameValue with
    | none => .error (.valueError ("bad query field: " ++ String.mk nameValue))
    | some (n, v) =>
      if v = [] then .ok r
      else .ok (r ++ [(pyUnquote (String.mk (plusToSpace n)),
                       pyUnquote (String.mk (plusToSpace v)))])

/-- `urllib.parse.parse_qsl(qs, strict_parsing=True)` with the default
`keep_blank_values=False` and separator `&`: every `&`-separated field must
contain `=` (otherwise `ValueError: bad query field`), fields with an empty
value are dropped, `+` becomes a space and `%XX` escapes are decoded. -/
def parse_qsl_strict (qs : String) : Except PyErr (List (String × String)) :=
  (splitOnCharList '&' qs.data).foldl parse_qsl_step (.ok [])

/-- `parsed_result.setdefault(name, []).append(value)`: append a value to the
entry for `k`, creating the entry at the end if absent (dict insertion
order). -/
def qsAppend (d : List (String × List String)) (k v : String) :
    List (String × List String) :=
  match d with
  | [] => [(k, [v])]
  | (k', vs) :: rest =>
    if k' = k then (k', vs ++ [v]) :: rest else (k', vs) :: qsAppend rest k v

/-- The dict built by `urllib.parse.parse_qs` from the parsed pairs. -/
def parse_qs_from_pairs (pairs : List (String × String)) :
    List (String × List String) :=
  pairs.foldl (fun d nv => qsAppend d nv.1 nv.2) []

/-- Python `dict.get(k)` on the query dict: `None` when the key is absent,
the stored list otherwise (keys are unique, so the first entry is the
entry). -/
def qsGet : List (String × List String) → String → Option (List String)
  | [], _ => none
  | (k0, vs) :: rest, k => if k0 = k then some vs else qsGet rest k

/-- Everything strictly before the first occurrence of `stop`. -/
def takeUntilChar (stop : Char) : List Char → List Char
  | [] => []
  | c :: rest => if c = stop then [] else c :: takeUntilChar stop rest

/-- Everything strictly after the first occurrence of `stop`, if any. -/
def dropThroughChar (stop : Char) : List Char → Option (List Char)
  | [] => none
  | c :: rest => if c = stop then some rest else dropThroughChar stop rest

/-- The `query` component extracted by `urllib.parse.urlparse`: drop the part
from the first `#` (the fragment), then take what follows the first `?`
(empty if there is no `?`). -/
def urlsplitQuery (url : String) : String :=
  match dropThroughChar '?' (takeUntilChar '#' url.data) with
  | none => ""
  | some q => String.mk q

/-- `os.path.join(a, b)` (posixpath) for two components: `b` wins when it is
absolute, and a separator is inserted only when `a` is nonempty and does not
already end in `/`. -/
def posixpath_join2 (a b : String) : String :=
  match b.data with
  | '/' :: _ => b
  | _ =>
    if a = "" ∨ a.data.getLast? = some '/' then a ++ b
    else a ++ "/" ++ b

/-- Python f-string interpolation of a variable that may be `None`. -/
def pyFStr (v : Option String) : String := v.getD "None"

/-- The backend connection specification returned by
`cluster.get_connection_spec()`: a dict whose relevant keys are `host`,
`port` and `dsn`. A key that is absent from the dict is modelled as `none`
(the source dict never stores `None` under a present key). Port values are
kept as the strings they interpolate to. -/
structure PgConSpec where
  host : Option String
  port : Option String
  dsn : Option String
deriving DecidableEq, Repr

/-- The DSN branch of `Server._get_pgaddr`: parse the DSN as a URI, parse its
query string strictly, then `query.get("host")[-1]` and
`query.get("port")[-1]` — subscripting the `None` returned by `get` on a
missing key raises `TypeError`. -/
def pgaddrFromDsn (dsn : String) : Except PyErr String :=
  match parse_qsl_strict (urlsplitQuery dsn) with
  | .error e => .error e
  | .ok pairs =>
    let query := parse_qs_from_pairs pairs
    match qsGet query "host" with
    | none => .error .typeError
    | some hs =>
      match hs.getLast? with
      | none => .error .indexError
      | some host =>
        match qsGet query "port" with
        | none => .error .typeError
        | some ps =>
          match ps.getLast? with
          | none => .error .indexError
          | some port => .ok (posixpath_join2 host (".s.PGSQL." ++ port))

/-- `Server._get_pgaddr`: if the spec has no `host` key but has a `dsn` key,
resolve through the DSN query string; otherwise read `host`/`port` directly
(`os.path.join(None, ...)` raises `TypeError` when `host` is absent, while an
absent `port` interpolates as the string `None`). -/
def _get_pgaddr (spec : PgConSpec) : Except PyErr String :=
  match spec.host, spec.dsn with
  | none, some dsn => pgaddrFromDsn dsn
  | none, none => .error .typeError
  | some h, _ => .ok (posixpath_join2 h (".s.PGSQL." ++ pyFStr spec.port))

/-- An authentication method value; the source represents methods as config
objects, identified here by their type name. -/
structure AuthMethod where
  name : String
deriving DecidableEq, Repr

/-- One entry of the `auth` system-configuration setting: user patterns,
database patterns, a priority and the method. -/
structure AuthRule where
  user : List String
  database : List String
  priority : Int
  method : AuthMethod
deriving DecidableEq, Repr

/-- `Server._populate_sys_auth`:
`tuple(sorted(sys_config.get('auth', ()), key=lambda a: a.priority))` — a
stable ascending sort by priority (Python `sorted` is stable; insertion sort
is the stable sort used to model it). -/
def _populate_sys_auth (authConf : List AuthRule) : List AuthRule :=
  List.insertionSort (fun a b => a.priority ≤ b.priority) authConf

/-- The per-rule match test in `Server.get_auth_method`:
`(user in auth.user or '*' in auth.user) and (database in auth.database or
'*' in auth.database)`. -/
def authRuleMatches (user database : String) (a : AuthRule) : Bool :=
  (a.user.contains user || a.user.contains "*") &&
    (a.database.contains database || a.database.contains "*")

/-- `Server.get_auth_method(user, database, conn)`: with an empty rule list
return the default `SCRAM` method (constructed from its type descriptor
looked up by name); otherwise return the method of the first matching rule
in list order, or `none` (Python falls off the loop and returns `None`). -/
def get_auth_method (user database : String) (authlist : List AuthRule) :
    Option AuthMethod :=
  if authlist.isEmpty then some { name := "SCRAM" }
  else (authlist.find? (authRuleMatches user database)).map (fun a => a.method)

/-- A compiler worker handle, identified by the id the pool assigned to it. -/
structure CompilerWorker where
  wid : Nat
deriving DecidableEq, Repr

/-- Modelled from the spec: the compiler-worker pool manager
(`self._compiler_manager`) is not under `src/`; per the spec contract it
exposes `spawn_worker()` returning a fresh handle, per-worker `call(...)`
and `close()`, and has a live-worker population whose size is the
"live worker count". -/
structure PoolState where
  nextId : Nat
  live : List Nat
deriving DecidableEq, Repr

/-- Modelled from the spec: `spawn_worker()` hands out a fresh worker handle
and adds it to the live population. -/
def spawn_worker (p : PoolState) : CompilerWorker × PoolState :=
  (⟨p.nextId⟩, { nextId := p.nextId + 1, live := p.live ++ [p.nextId] })

/-- Modelled from the spec: `worker.close()` removes the worker from the
pool's live population. -/
def worker_close (p : PoolState) (w : CompilerWorker) : PoolState :=
  { p with live := p.live.erase w.wid }

/-- `Server.new_compiler(dbname, dbver)`: spawn a worker, issue
`call('connect', dbname, dbver)` on it; if that call raises, close the
worker and re-raise; otherwise return the worker. The outcome of the
`connect` call is supplied by `callBeh`. -/
def new_compiler (callBeh : CompilerWorker → String → String → Except String Unit)
    (p : PoolState) (dbname dbver : String) :
    PoolState × Except String CompilerWorker :=
  let sw := spawn_worker p
  match callBeh sw.1 dbname dbver with
  | .error e => (worker_close sw.2 sw.1, .error e)
  | .ok _ => (sw.2, .ok sw.1)

/-- A dynamic-port configuration object — one entry of the `ports` setting,
with the fields `Server._start_portconf` reads off it. -/
structure PortConf where
  protocol : String
  address : String
  port : Int
  database : Option String
  user : Option String
  concurrency : Int
deriving DecidableEq, Repr

/-- The two listener classes the protocol dispatch can select
(`http_graphql_port.HttpGraphQLPort`, `http_edgeql_port.HttpEdgeQLPort`). -/
inductive PortCls where
  | httpGraphQLPort
  | httpEdgeQLPort
deriving DecidableEq, Repr

/-- Outcomes of a listener's `start()` and `stop()` calls — the listener
contract makes both fallible; an `error` value is the exception the call
raises. -/
structure PortBehavior where
  startResult : Except String Unit
  stopResult : Except String Unit
deriving DecidableEq, Repr

/-- A constructed listener instance: the class the protocol dispatch chose,
the configuration object whose fields (`port`, `address`, `database`,
`user`, `protocol`, `concurrency`) were passed to the constructor, and the
listener's start/stop behavior. The remaining constructor arguments
(`pg_addr`, `pg_data_dir`, the runstate directories, `dbindex`, `loop`) are
per-server constants and play no role in the lifecycle claims. -/
structure Port where
  cls : PortCls
  conf : PortConf
  behavior : PortBehavior
deriving DecidableEq, Repr

/-- One observable step of an orchestrator operation: a listener `start()`
or `stop()` call, a `_serving` assignment, or a log statement. -/
inductive Event where
  | portStart (p : Port)
  | portStop (p : Port)
  | setServing (b : Bool)
  | logInfo (msg : String)
  | logWarning (msg : String)
  | logError (msg : String)
deriving DecidableEq, Repr

/-- The orchestrator state the lifecycle operations touch: the `_serving`
flag, the static `_ports` list and the `_sys_conf_ports` dict, modelled as
an insertion-ordered association list keyed by configuration object. -/
structure ServerState where
  serving : Bool
  ports : List Port
  sys_conf_ports : List (PortConf × Port)
deriving DecidableEq, Repr

/-- `portconf in self._sys_conf_ports` (dict key membership). -/
def hasKey (m : List (PortConf × Port)) (c : PortConf) : Bool :=
  m.any (fun kv => kv.1 == c)

/-- Dict lookup: the value of the first entry with the key. -/
def getKey (m : List (PortConf × Port)) (c : PortConf) : Option Port :=
  (m.find? (fun kv => kv.1 == c)).map (fun kv => kv.2)

/-- `self._sys_conf_ports.pop(portconf)`: remove the entry with the key. -/
def removeKey (m : List (PortConf × Port)) (c : PortConf) :
    List (PortConf × Port) :=
  m.eraseP (fun kv => kv.1 == c)

/-- `self._sys_conf_ports[portconf] = port`: overwrite the entry in place if
the key is present, else append in insertion order. -/
def setKey (m : List (PortConf × Port)) (c : PortConf) (p : Port) :
    List (PortConf × Port) :=
  if hasKey m c then m.map (fun kv => if kv.1 == c then (c, p) else kv)
  else m ++ [(c, p)]

/-- The protocol dispatch in `Server._start_portconf`: `'graphql+http'` and
`'edgeql+http'` select a listener class; anything else raises
`errors.InvalidReferenceError(f'unknown protocol {...!r}')`. -/
def protocolCls (protocol : String) : Option PortCls :=
  if protocol = "graphql+http" then some PortCls.httpGraphQLPort
  else if protocol = "edgeql+http" then some PortCls.httpEdgeQLPort
  else none

/-- Exceptions escaping `Server._start_portconf`: the unknown-protocol
`InvalidReferenceError`, or an exception raised by a listener call. -/
inductive SrvErr where
  | invalidReference (msg : String)
  | portError (msg : String)
deriving DecidableEq, Repr

/-- `Server._start_portconf(portconf, suppress_errors=...)`. Returns the
trace of calls performed, the state after the call, and either the raised
exception or the value returned (`none` for the early no-op return, the
port otherwise). `beh` gives the start/stop behavior of the listener that
constructing a port for the given configuration object yields. Source
shape: early return when the key is registered; protocol dispatch (raise
before any construction on an unknown protocol); construct; `try start()`;
on exception `stop()` — a failure of that cleanup `stop()` propagates out
of the `except` block — then either log (suppressed) or `raise ex`; the
dict assignment and `return port` run on start success and on the
suppressed-failure fall-through. -/
def _start_portconf (beh : PortConf → PortBehavior) (st : ServerState)
    (portconf : PortConf) (suppress_errors : Bool) :
    List Event × ServerState × Except SrvErr (Option Port) :=
  if hasKey st.sys_conf_ports portconf then
    ([Event.logInfo "port for config has been already started"], st, .ok none)
  else
    match protocolCls portconf.protocol with
    | none =>
      ([], st, .error (.invalidReference ("unknown protocol " ++ portconf.protocol)))
    | some cls =>
      let port : Port := { cls := cls, conf := portconf, behavior := beh portconf }
      match port.behavior.startResult with
      | .ok _ =>
        ([Event.portStart port, Event.logInfo "started port for config"],
         { st with sys_conf_ports := setKey st.sys_conf_ports portconf port },
         .ok (some port))
      | .error ex =>
        match port.behavior.stopResult with
        | .ok _ =>
          if suppress_errors then
            ([Event.portStart port, Event.portStop port,
              Event.logError "failed to start port for config"],
             { st with sys_conf_ports := setKey st.sys_conf_ports portconf port },
             .ok (some port))
          else
            ([Event.portStart port, Event.portStop port], st,
             .error (.portError ex))
        | .error ex2 =>
          ([Event.portStart port, Event.portStop port], st,
           .error (.portError ex2))

/-- `Server._stop_portconf(portconf)`: warn and return when the key is
absent; otherwise pop the entry and call the port's `stop()`, logging (and
never raising) a stop failure. -/
def _stop_portconf (st : ServerState) (portconf : PortConf) :
    List Event × ServerState :=
  match getKey st.sys_conf_ports portconf with
  | none => ([Event.logWarning "no port to stop for config"], st)
  | some port =>
    let st2 := { st with sys_conf_ports := removeKey st.sys_conf_ports portconf }
    match port.behavior.stopResult with
    | .ok _ =>
      ([Event.portStop port, Event.logInfo "stopped port for config"], st2)
    | .error _ =>
      ([Event.portStop port, Event.logError "failed to stop port for config"], st2)

/-- Modelled from the spec: `edb.common.taskgroup.TaskGroup` is not under
`src/`. Per the spec, `stop()` stops all static and dynamic ports as one
structured group in which per-listener stop errors are logged, not raised,
and do not block stopping the others; this helper invokes `stop()` on every
listener of the group and logs each failure. -/
def stopGroupEvents (ps : List Port) : List Event :=
  (ps.map (fun p =>
    Event.portStop p ::
      (match p.behavior.stopResult with
       | .ok _ => []
       | .error _ => [Event.logError "failed to stop port"]))).flatten

/-- `Server.stop()`: set `_serving = False` first, then within one task
group create a `stop()` task for every static port and every dynamic port
and clear both collections; the group barrier awaits all the stop calls
before the function returns. -/
def server_stop (st : ServerState) : List Event × ServerState :=
  (Event.setServing false ::
     stopGroupEvents (st.ports ++ st.sys_conf_ports.map (fun kv => kv.2)),
   { st with serving := false, ports := [], sys_conf_ports := [] })

/-- Every key registered in `_sys_conf_ports` has a known protocol. This holds
of every state the code constructs: registration happens only after the
protocol dispatch has succeeded. -/
def PortsInv (st : ServerState) : Prop :=
  ∀ kv ∈ st.sys_conf_ports, (protocolCls kv.1.protocol).isSome

/-! ### Concrete fixtures used by witnesses and counterexamples -/

/-- A fresh orchestrator state: nothing serving, no ports registered. -/
def emptyState : ServerState := { serving := false, ports := [], sys_conf_ports := [] }

/-- A behavior on which every listener starts and stops cleanly. -/
def anyBeh : PortConf → PortBehavior := fun _ => ⟨.ok (), .ok ()⟩

/-- A port configuration object with a known protocol. -/
def knownConf : PortConf :=
  { protocol := "graphql+http", address := "localhost", port := 8888,
    database := none, user := none, concurrency := 4 }

/-- A port configuration object whose protocol string is not a known one. -/
def unknownConf : PortConf :=
  { protocol := "foo", address := "localhost", port := 8888,
    database := none, user := none, concurrency := 4 }

/-- A listener instance for `knownConf` with clean start/stop. -/
def cPort : Port := ⟨PortCls.httpGraphQLPort, knownConf, ⟨.ok (), .ok ()⟩⟩

/-- A state in which `knownConf` is already registered. -/
def oneState : ServerState := { serving := true, ports := [], sys_conf_ports := [(knownConf, cPort)] }

/-- A behavior on which the listener's `start()` raises and the cleanup
`stop()` raises as well. -/
def badStopBeh : PortConf → PortBehavior := fun _ => ⟨.error "startboom", .error "stopboom"⟩

/-- A behavior on which the listener's `start()` raises but `stop()` is clean. -/
def stopOkBeh : PortConf → PortBehavior := fun _ => ⟨.error "startboom", .ok ()⟩

/-- A compiler-worker bind call that always fails. -/
def failBindBeh : CompilerWorker → String → String → Except String Unit :=
  fun _ _ _ => .error "connect failed"

/-- A static port whose `stop()` raises. -/
def stopFailPort : Port := ⟨PortCls.httpEdgeQLPort, knownConf, ⟨.ok (), .error "stopboom"⟩⟩

/-- A state with one static port (whose stop raises) and one dynamic port. -/
def twoPortState : ServerState :=
  { serving := true, ports := [stopFailPort], sys_conf_ports := [(knownConf, cPort)] }

/-- The two rules named in the spec, in the order the configuration lists
them, passed through `_populate_sys_auth` (the ascending stable sort). -/
def exampleAuthRules : List AuthRule :=
  _populate_sys_auth
    [{ user := ["*"], database := ["*"], priority := 10, method := { name := "M1" } },
     { user := ["alice"], database := ["*"], priority := 1, method := { name := "M2" } }]

/-- A single wildcard rule, used to witness the general clause of C6. -/
def singleAuthRule : AuthRule :=
  { user := ["*"], database := ["*"], priority := 0, method := { name := "Trust" } }

/-- All values carried by a key in the parsed pair list, in order. -/
def qsAllVals (pairs : List (String × String)) (k : String) : List String :=
  (pairs.filter (fun nv => nv.1 == k)).map (fun nv => nv.2)

/-! ### Helper lemmas about the `_sys_conf_ports` dict model -/

lemma hasKey_eq_false_iff {m : List (PortConf × Port)} {c : PortConf} :
    hasKey m c = false ↔ ∀ kv ∈ m, kv.1 ≠ c := by
  simp [hasKey]

lemma find?_key_of_hasKey_eq_false {m : List (PortConf × Port)} {c : PortConf}
    (h : hasKey m c = false) : m.find? (fun kv => kv.1 == c) = none := by
  rw [hasKey_eq_false_iff] at h
  rw [List.find?_eq_none]
  intro kv hkv
  simpa using h kv hkv

lemma getKey_eq_none_of_hasKey_eq_false {m : List (PortConf × Port)} {c : PortConf}
    (h : hasKey m c = false) : getKey m c = none := by
  simp [getKey, find?_key_of_hasKey_eq_false h]

lemma getKey_append_singleton {m : List (PortConf × Port)} {c : PortConf} {p : Port}
    (h : hasKey m c = false) : getKey (m ++ [(c, p)]) c = some p := by
  simp [getKey, List.find?_append, find?_key_of_hasKey_eq_false h]

lemma hasKey_append_singleton {m : List (PortConf × Port)} (c : PortConf) (p : Port) :
    hasKey (m ++ [(c, p)]) c = true := by
  simp [hasKey]

lemma removeKey_append_singleton {m : List (PortConf × Port)} {c : PortConf} {p : Port}
    (h : hasKey m c = false) : removeKey (m ++ [(c, p)]) c = m := by
  rw [hasKey_eq_false_iff] at h
  unfold removeKey
  rw [List.eraseP_append_right]
  · simp
  · intro kv hkv
    simpa using h kv hkv

lemma setKey_of_hasKey_eq_false {m : List (PortConf × Port)} {c : PortConf} {p : Port}
    (h : hasKey m c = false) : setKey m c p = m ++ [(c, p)] := by
  simp [setKey, h]

/-! ### Reachability invariants of the reconciler state -/

/-- State characterization of `_start_portconf`: the call either leaves the
state unchanged, or (when the key was new, the protocol known, and the start
either succeeded or had its failure suppressed after a clean cleanup stop)
appends exactly the one new entry. -/
lemma start_portconf_state (beh : PortConf → PortBehavior) (st : ServerState)
    (portconf : PortConf) (suppress : Bool) :
    (_start_portconf beh st portconf suppress).2.1 = st ∨
    ∃ cls, protocolCls portconf.protocol = some cls ∧
      hasKey st.sys_conf_ports portconf = false ∧
      (_start_portconf beh st portconf suppress).2.1 =
        { st with sys_conf_ports :=
            st.sys_conf_ports ++ [(portconf, ⟨cls, portconf, beh portconf⟩)] } := by
  unfold _start_portconf
  cases hk : hasKey st.sys_conf_ports portconf with
  | true => simp [hk]
  | false =>
    cases hp : protocolCls portconf.protocol with
    | none => simp [hk, hp]
    | some cls =>
      cases hs : (beh portconf).startResult with
      | ok u =>
        right
        exact ⟨cls, rfl, rfl, by simp [hk, hs, setKey_of_hasKey_eq_false hk]⟩
      | error ex =>
        cases hst : (beh portconf).stopResult with
        | ok u =>
          cases suppress with
          | true =>
            right
            exact ⟨cls, rfl, rfl, by simp [hk, hs, hst, setKey_of_hasKey_eq_false hk]⟩
          | false => simp [hk, hp, hs, hst]
        | error ex2 => simp [hk, hp, hs, hst]

/-- State characterization of `_stop_portconf`: the state is unchanged or the
entry for the key is removed. -/
lemma stop_portconf_state (st : ServerState) (portconf : PortConf) :
    (_stop_portconf st portconf).2 = st ∨
    (_stop_portconf st portconf).2 =
      { st with sys_conf_ports := removeKey st.sys_conf_ports portconf } := by
  unfold _stop_portconf
  cases hg : getKey st.sys_conf_ports portconf with
  | none => simp
  | some port =>
    cases hst : port.behavior.stopResult with
    | ok u => simp [hst]
    | error e => simp [hst]

lemma PortsInv_start_portconf {beh : PortConf → PortBehavior} {st : ServerState}
    {portconf : PortConf} {suppress : Bool} (h : PortsInv st) :
    PortsInv (_start_portconf beh st portconf suppress).2.1 := by
  rcases start_portconf_state beh st portconf suppress with heq | ⟨cls, hp, _, heq⟩
  · rw [heq]; exact h
  · rw [heq]
    intro kv hkv
    rcases List.mem_append.1 hkv with hkv | hkv
    · exact h kv hkv
    · rcases List.mem_singleton.1 hkv with rfl
      simp [hp]

lemma PortsInv_stop_portconf {st : ServerState} {portconf : PortConf}
    (h : PortsInv st) : PortsInv (_stop_portconf st portconf).2 := by
  rcases stop_portconf_state st portconf with heq | heq
  · rw [heq]; exact h
  · rw [heq]
    intro kv hkv
    exact h kv ((List.eraseP_sublist st.sys_conf_ports).subset hkv)

/-! ### C9 -/

/-- C9: for every database name/version pair, when the `connect` bind call on
the freshly spawned worker fails, `new_compiler` closes that worker before
the error propagates — the pool's live population returns exactly to its
pre-call value and no worker handle is returned; on success the bound worker
handle is returned. -/
theorem C9_thm (callBeh : CompilerWorker → String → String → Except String Unit)
    (p : PoolState) (dbname dbver : String) (hfresh : p.nextId ∉ p.live) :
    (∀ e, callBeh ⟨p.nextId⟩ dbname dbver = .error e →
        new_compiler callBeh p dbname dbver =
          ({ nextId := p.nextId + 1, live := p.live }, .error e)) ∧
    (∀ u, callBeh ⟨p.nextId⟩ dbname dbver = .ok u →
        new_compiler callBeh p dbname dbver =
          ({ nextId := p.nextId + 1, live := p.live ++ [p.nextId] }, .ok ⟨p.nextId⟩)) := by
  constructor
  · intro e he
    unfold new_compiler spawn_worker worker_close
    simp only [he]
    rw [List.erase_append_right _ hfresh]
    simp
  · intro u hu
    unfold new_compiler spawn_worker
    simp [hu]

/-- Witness for C9 at a concrete pool and a failing bind call. -/
theorem C9_witness :
    new_compiler failBindBeh { nextId := 0, live := [] } "db" "v1" =
      ({ nextId := 1, live := [] }, .error "connect failed") :=
  (C9_thm failBindBeh { nextId := 0, live := [] } "db" "v1" (by simp)).1
    "connect failed" rfl

/-! ### C4 -/

/-- C4: for every reachable state (every registered key has a known protocol)
and every configuration object with an unknown protocol, `_start_portconf`
raises `InvalidReferenceError` regardless of `suppress_errors`, performs no
listener call, and leaves the state — in particular `_sys_conf_ports` —
unchanged. -/
theorem C4_thm (beh : PortConf → PortBehavior) (st : ServerState)
    (portconf : PortConf) (suppress : Bool) (hinv : PortsInv st)
    (hunk : protocolCls portconf.protocol = none) :
    _start_portconf beh st portconf suppress =
      ([], st, .error (.invalidReference ("unknown protocol " ++ portconf.protocol))) := by
  have hk : hasKey st.sys_conf_ports portconf = false := by
    cases hk : hasKey st.sys_conf_ports portconf with
    | false => rfl
    | true =>
      exfalso
      simp only [hasKey, List.any_eq_true] at hk
      rcases hk with ⟨kv, hmem, hbe⟩
      have hiv := hinv kv hmem
      rw [beq_iff_eq] at hbe
      rw [hbe, hunk] at hiv
      simp at hiv
  unfold _start_portconf
  simp [hk, hunk]

/-- Witness for C4 at a concrete state and unknown-protocol configuration,
for both values of `suppress_errors`. -/
theorem C4_witness :
    _start_portconf anyBeh emptyState unknownConf true =
      ([], emptyState, .error (.invalidReference ("unknown protocol " ++ unknownConf.protocol))) ∧
    _start_portconf anyBeh emptyState unknownConf false =
      ([], emptyState, .error (.invalidReference ("unknown protocol " ++ unknownConf.protocol))) :=
  ⟨C4_thm anyBeh emptyState unknownConf true (by simp [PortsInv, emptyState]) (by decide),
   C4_thm anyBeh emptyState unknownConf false (by simp [PortsInv, emptyState]) (by decide)⟩

/-! ### C5 -/

/-- C5: at most one entry per configuration-object key ever exists:
`_start_portconf` on an already-registered key is a pure no-op (no listener
constructed or started, state unchanged), `_stop_portconf` on an absent key
is a pure no-op (no exception, state unchanged), and both operations
preserve distinctness of the keys of `_sys_conf_ports`. -/
theorem C5_thm (beh : PortConf → PortBehavior) (st : ServerState)
    (portconf : PortConf) (suppress : Bool) :
    (hasKey st.sys_conf_ports portconf = true →
      _start_portconf beh st portconf suppress =
        ([Event.logInfo "port for config has been already started"], st, .ok none)) ∧
    (hasKey st.sys_conf_ports portconf = false →
      _stop_portconf st portconf =
        ([Event.logWarning "no port to stop for config"], st)) ∧
    ((st.sys_conf_ports.map Prod.fst).Nodup →
      ((_start_portconf beh st portconf suppress).2.1.sys_conf_ports.map Prod.fst).Nodup ∧
      ((_stop_portconf st portconf).2.sys_conf_ports.map Prod.fst).Nodup) := by
  refine ⟨?_, ?_, ?_⟩
  · intro h
    unfold _start_portconf
    simp [h]
  · intro h
    unfold _stop_portconf
    simp [getKey_eq_none_of_hasKey_eq_false h]
  · intro hnd
    refine ⟨?_, ?_⟩
    · rcases start_portconf_state beh st portconf suppress with heq | ⟨cls, _, hk, heq⟩
      · rw [heq]; exact hnd
      · rw [heq]
        simp only [List.map_append]
        rw [List.nodup_append_comm]
        simp only [List.singleton_append, List.map_cons, List.map_nil]
        rw [List.nodup_cons]
        refine ⟨?_, hnd⟩
        intro hmem
        rcases List.mem_map.1 hmem with ⟨kv, hkv, hfst⟩
        exact (hasKey_eq_false_iff.1 hk kv hkv) hfst
    · rcases stop_portconf_state st portconf with heq | heq
      · rw [heq]; exact hnd
      · rw [heq]
        exact hnd.sublist ((List.eraseP_sublist _).map Prod.fst)

/-- Witness for C5: starting an already-registered configuration is a no-op,
and stopping an unregistered one is a no-op. -/
theorem C5_witness :
    _start_portconf anyBeh oneState knownConf true =
      ([Event.logInfo "port for config has been already started"], oneState, .ok none) ∧
    _stop_portconf emptyState knownConf =
      ([Event.logWarning "no port to stop for config"], emptyState) :=
  ⟨(C5_thm anyBeh oneState knownConf true).1 (by decide),
   (C5_thm anyBeh emptyState knownConf true).2.1 (by decide)⟩

/-! ### C2 -/

/-- C2: `stop()` sets `serving` to `false` before any listener call (the
first trace event is the flag assignment), invokes `stop()` on every static
and every dynamic port — including when some listener's `stop()` raises,
whose failure is logged and, `server_stop` being total, never re-raised —
and leaves both listener collections empty. -/
theorem C2_thm (st : ServerState) :
    (server_stop st).2.serving = false ∧
    (server_stop st).2.ports = [] ∧
    (server_stop st).2.sys_conf_ports = [] ∧
    (server_stop st).1.head? = some (Event.setServing false) ∧
    (∀ p ∈ st.ports, Event.portStop p ∈ (server_stop st).1) ∧
    (∀ kv ∈ st.sys_conf_ports, Event.portStop kv.2 ∈ (server_stop st).1) ∧
    (∀ p ∈ st.ports ++ st.sys_conf_ports.map (fun kv => kv.2), ∀ e,
        p.behavior.stopResult = .error e →
        Event.logError "failed to stop port" ∈ (server_stop st).1) := by
  refine ⟨rfl, rfl, rfl, rfl, ?_, ?_, ?_⟩
  · intro p hp
    unfold server_stop stopGroupEvents
    simp only [List.mem_cons]
    right
    rw [List.mem_flatten]
    exact ⟨_, List.mem_map.2 ⟨p, List.mem_append_left _ hp, rfl⟩,
           List.mem_cons_self _ _⟩
  · intro kv hkv
    unfold server_stop stopGroupEvents
    simp only [List.mem_cons]
    right
    rw [List.mem_flatten]
    refine ⟨_, List.mem_map.2 ⟨kv.2, ?_, rfl⟩, List.mem_cons_self _ _⟩
    exact List.mem_append_right _ (List.mem_map.2 ⟨kv, hkv, rfl⟩)
  · intro p hp e he
    unfold server_stop stopGroupEvents
    simp only [List.mem_cons]
    right
    rw [List.mem_flatten]
    refine ⟨_, List.mem_map.2 ⟨p, hp, rfl⟩, ?_⟩
    simp [he]

/-- Witness for C2 at a concrete state in which one listener's `stop()`
raises: both listeners still get their `stop()` call and both collections
end empty. -/
theorem C2_witness :
    (server_stop twoPortState).2.ports = [] ∧
    (server_stop twoPortState).2.sys_conf_ports = [] ∧
    Event.portStop stopFailPort ∈ (server_stop twoPortState).1 ∧
    Event.portStop cPort ∈ (server_stop twoPortState).1 := by
  refine ⟨(C2_thm twoPortState).2.1, (C2_thm twoPortState).2.2.1, ?_, ?_⟩
  · exact (C2_thm twoPortState).2.2.2.2.1 stopFailPort (by decide)
  · exact (C2_thm twoPortState).2.2.2.2.2.1 (knownConf, cPort) (by decide)

/-! ### C1 -/

/-- C1 counterexample: a configuration object with a known protocol, not
registered, whose listener's `start()` raises — with `suppress_errors=True`
the claim says no error reaches the caller, but when the cleanup `stop()`
also raises, its error escapes the `except` block and propagates. -/
theorem C1_counterexample :
    hasKey emptyState.sys_conf_ports knownConf = false ∧
    (protocolCls knownConf.protocol).isSome = true ∧
    (badStopBeh knownConf).startResult = .error "startboom" ∧
    (_start_portconf badStopBeh emptyState knownConf true).2.2 =
      .error (.portError "stopboom") := by decide

/-- C1 (amended): when `start()` raises, `stop()` is always called on the
same listener first (the trace begins with the start call then the stop
call); if that cleanup `stop()` returns normally, the original start error
propagates when `suppress_errors` is false and no error is raised when it is
true; if the cleanup `stop()` itself raises, the stop error propagates to
the caller regardless of `suppress_errors`. -/
theorem C1_thm (beh : PortConf → PortBehavior) (st : ServerState)
    (portconf : PortConf) (cls : PortCls) (e : String)
    (hk : hasKey st.sys_conf_ports portconf = false)
    (hp : protocolCls portconf.protocol = some cls)
    (hs : (beh portconf).startResult = .error e) :
    (∀ suppress, (_start_portconf beh st portconf suppress).1.take 2 =
        [Event.portStart ⟨cls, portconf, beh portconf⟩,
         Event.portStop ⟨cls, portconf, beh portconf⟩]) ∧
    ((beh portconf).stopResult = .ok () →
      (_start_portconf beh st portconf false).2.2 = .error (.portError e) ∧
      (_start_portconf beh st portconf true).2.2 =
        .ok (some ⟨cls, portconf, beh portconf⟩)) ∧
    (∀ e2, (beh portconf).stopResult = .error e2 →
      ∀ suppress, (_start_portconf beh st portconf suppress).2.2 =
        .error (.portError e2)) := by
  refine ⟨?_, ?_, ?_⟩
  · intro suppress
    unfold _start_portconf
    cases hst : (beh portconf).stopResult with
    | ok u => cases suppress <;> simp [hk, hp, hs, hst]
    | error e2 => cases suppress <;> simp [hk, hp, hs, hst]
  · intro hst
    constructor
    · unfold _start_portconf
      simp [hk, hp, hs, hst]
    · unfold _start_portconf
      simp [hk, hp, hs, hst]
  · intro e2 hst suppress
    unfold _start_portconf
    cases suppress <;> simp [hk, hp, hs, hst]

/-- Witness for C1 (amended) at a listener whose `start()` raises and whose
cleanup `stop()` is clean: unsuppressed, the original start error
propagates; suppressed, the call returns the port without raising. -/
theorem C1_witness :
    (_start_portconf stopOkBeh emptyState knownConf false).2.2 =
      .error (.portError "startboom") ∧
    (_start_portconf stopOkBeh emptyState knownConf true).2.2 =
      .ok (some ⟨PortCls.httpGraphQLPort, knownConf, stopOkBeh knownConf⟩) :=
  (C1_thm stopOkBeh emptyState knownConf PortCls.httpGraphQLPort "startboom"
      (by decide) (by decide) (by decide)).2.1 (by decide)

/-! ### C10 -/

/-- C10 counterexample: with `suppress_errors=True`, a listener whose
`start()` raises is *not* recorded in `_sys_conf_ports` when the cleanup
`stop()` also raises — the dict assignment on the fall-through path is never
reached, refuting the claim that the entry is recorded whenever `start()`
raised. -/
theorem C10_counterexample :
    hasKey emptyState.sys_conf_ports knownConf = false ∧
    (protocolCls knownConf.protocol).isSome = true ∧
    (badStopBeh knownConf).startResult = .error "startboom" ∧
    getKey (_start_portconf badStopBeh emptyState knownConf true).2.1.sys_conf_ports
      knownConf = none := by decide

/-- C10 (amended): with `suppress_errors=True`, when `start()` raises and the
cleanup `stop()` returns normally, the failed listener *is* recorded under
its configuration object; a subsequent `_start_portconf` for the same
configuration object is then a no-op, and a subsequent `_stop_portconf`
removes the entry and calls `stop()` on the failed listener. -/
theorem C10_thm (beh : PortConf → PortBehavior) (st : ServerState)
    (portconf : PortConf) (cls : PortCls) (e : String)
    (hk : hasKey st.sys_conf_ports portconf = false)
    (hp : protocolCls portconf.protocol = some cls)
    (hs : (beh portconf).startResult = .error e)
    (hst : (beh portconf).stopResult = .ok ()) :
    getKey (_start_portconf beh st portconf true).2.1.sys_conf_ports portconf =
      some ⟨cls, portconf, beh portconf⟩ ∧
    (∀ suppress2,
      _start_portconf beh (_start_portconf beh st portconf true).2.1 portconf suppress2 =
        ([Event.logInfo "port for config has been already started"],
         (_start_portconf beh st portconf true).2.1, .ok none)) ∧
    Event.portStop ⟨cls, portconf, beh portconf⟩ ∈
      (_stop_portconf (_start_portconf beh st portconf true).2.1 portconf).1 ∧
    getKey (_stop_portconf (_start_portconf beh st portconf true).2.1
        portconf).2.sys_conf_ports portconf = none := by
  have hst1 : (_start_portconf beh st portconf true).2.1 =
      { st with sys_conf_ports :=
          st.sys_conf_ports ++ [(portconf, ⟨cls, portconf, beh portconf⟩)] } := by
    unfold _start_portconf
    simp [hk, hp, hs, hst, setKey_of_hasKey_eq_false hk]
  refine ⟨?_, ?_, ?_, ?_⟩
  · rw [hst1]
    exact getKey_append_singleton hk
  · intro suppress2
    rw [hst1]
    unfold _start_portconf
    simp [hasKey_append_singleton]
  · rw [hst1]
    unfold _stop_portconf
    simp [getKey_append_singleton hk, hst]
  · rw [hst1]
    unfold _stop_portconf
    simp [getKey_append_singleton hk, hst, removeKey_append_singleton hk,
          getKey_eq_none_of_hasKey_eq_false hk]

/-- Witness for C10 (amended) at a concrete suppressed start failure with a
clean cleanup stop: the failed listener is registered, and a subsequent stop
deregisters it. -/
theorem C10_witness :
    getKey (_start_portconf stopOkBeh emptyState knownConf true).2.1.sys_conf_ports
      knownConf = some ⟨PortCls.httpGraphQLPort, knownConf, stopOkBeh knownConf⟩ ∧
    getKey (_stop_portconf (_start_portconf stopOkBeh emptyState knownConf true).2.1
        knownConf).2.sys_conf_ports knownConf = none := by
  have h := C10_thm stopOkBeh emptyState knownConf PortCls.httpGraphQLPort "startboom"
      (by decide) (by decide) (by decide) (by decide)
  exact ⟨h.1, h.2.2.2⟩

/-! ### C6 -/

/-- `List.find?` returns the element at the first index whose predicate
holds. -/
lemma find?_first {α : Type} (p : α → Bool) (l : List α) :
    ∀ (i : Nat) (hi : i < l.length),
      p (l.get ⟨i, hi⟩) = true →
      (∀ j (hj : j < i), p (l.get ⟨j, Nat.lt_trans hj hi⟩) = false) →
      l.find? p = some (l.get ⟨i, hi⟩) := by
  induction l with
  | nil => intro i hi; simp at hi
  | cons a t ih =>
    intro i hi hp hbefore
    cases i with
    | zero =>
      exact List.find?_cons_of_pos _ hp
    | succ i2 =>
      have ha : p a = false := hbefore 0 (Nat.succ_pos i2)
      rw [List.find?_cons_of_neg _ (by simp [ha])]
      exact ih i2 (Nat.lt_of_succ_lt_succ hi) hp
        (fun j hj => hbefore (j + 1) (Nat.succ_lt_succ hj))

/-- C6: on a non-empty rule list sorted ascending by priority,
`get_auth_method` returns the method of the first rule in list order (hence
in ascending-priority order) whose user pattern contains the user or `*` and
whose database pattern contains the database or `*`; in particular, on the
spec's two example rules, `alice@db1` resolves to `M2` and `bob@db1` to
`M1`. -/
theorem C6_thm :
    (∀ (user database : String) (authlist : List AuthRule) (i : Nat)
        (hi : i < authlist.length),
      authlist ≠ [] →
      List.Pairwise (fun a b => a.priority ≤ b.priority) authlist →
      authRuleMatches user database (authlist.get ⟨i, hi⟩) = true →
      (∀ j (hj : j < i),
        authRuleMatches user database (authlist.get ⟨j, Nat.lt_trans hj hi⟩) = false) →
      get_auth_method user database authlist = some (authlist.get ⟨i, hi⟩).method) ∧
    get_auth_method "alice" "db1" exampleAuthRules = some { name := "M2" } ∧
    get_auth_method "bob" "db1" exampleAuthRules = some { name := "M1" } := by
  refine ⟨?_, by decide, by decide⟩
  intro user database authlist i hi hne hsorted hmatch hbefore
  unfold get_auth_method
  rw [if_neg (by simpa using hne)]
  rw [find?_first _ _ i hi hmatch hbefore]
  rfl

/-- Witness for C6's general clause at a one-rule list: the first (only)
matching rule's method is returned. -/
theorem C6_witness :
    get_auth_method "anyuser" "anydb" [singleAuthRule] = some { name := "Trust" } :=
  C6_thm.1 "anyuser" "anydb" [singleAuthRule] 0 (by decide) (by decide)
    (by simp) (by decide) (fun j hj => absurd hj (Nat.not_lt_zero j))

/-! ### C7 -/

/-- C7 counterexample: with a structured host ending in `/`,
`os.path.join` does not double the separator, so the returned string is not
`<host>/.s.PGSQL.<port>` exactly. -/
theorem C7_counterexample :
    _get_pgaddr { host := some "/tmp/", port := some "5432",
                  dsn := some "pq:///?host=/x&port=9" } =
      .ok "/tmp/.s.PGSQL.5432" ∧
    "/tmp/.s.PGSQL.5432" ≠ "/tmp/" ++ "/.s.PGSQL." ++ "5432" := by decide

/-- C7 (amended): with a structured host present the resolver ignores any
`dsn` field and returns `os.path.join(host, '.s.PGSQL.' + port)`; this
equals `<host>/.s.PGSQL.<port>` exactly whenever the host is nonempty and
does not end in `/` (otherwise no separator is inserted). -/
theorem C7_thm (h : String) (port dsn : Option String) :
    _get_pgaddr { host := some h, port := port, dsn := dsn } =
      .ok (posixpath_join2 h (".s.PGSQL." ++ pyFStr port)) ∧
    _get_pgaddr { host := some h, port := port, dsn := dsn } =
      _get_pgaddr { host := some h, port := port, dsn := none } ∧
    (h ≠ "" → ¬ h.data.getLast? = some '/' → ∀ p, port = some p →
      _get_pgaddr { host := some h, port := port, dsn := dsn } =
        .ok (h ++ "/.s.PGSQL." ++ p)) := by
  refine ⟨rfl, rfl, ?_⟩
  intro hne hnl p hp
  subst hp
  have h1 : _get_pgaddr { host := some h, port := some p, dsn := dsn } =
      .ok (posixpath_join2 h (".s.PGSQL." ++ p)) := rfl
  rw [h1]
  have hjoin : posixpath_join2 h (".s.PGSQL." ++ p) =
      if h = "" ∨ h.data.getLast? = some '/' then h ++ (".s.PGSQL." ++ p)
      else h ++ "/" ++ (".s.PGSQL." ++ p) := rfl
  rw [hjoin, if_neg (fun hor => hor.elim hne hnl)]
  congr 1
  apply String.ext
  simp only [String.data_append, List.append_assoc]
  congr 1

/-- Witness for C7 (amended) at a concrete host with no trailing slash: the
`dsn` field is present yet ignored and the address has the spec's exact
shape. -/
theorem C7_witness :
    _get_pgaddr { host := some "/tmp", port := some "5432", dsn := some "pq://ignored" } =
      .ok ("/tmp" ++ "/.s.PGSQL." ++ "5432") :=
  (C7_thm "/tmp" (some "5432") (some "pq://ignored")).2.2 (by decide) (by decide)
    "5432" rfl

/-! ### C8 -/

/-- Looking a key up after `setdefault(...).append(v)`: the appended key's
list grows by `v` (starting from `[]` when absent), other keys are
unaffected. -/
lemma qsGet_qsAppend (d : List (String × List String)) (k v k2 : String) :
    qsGet (qsAppend d k v) k2 =
      if k2 = k then some (((qsGet d k).getD []) ++ [v]) else qsGet d k2 := by
  induction d with
  | nil =>
    by_cases h : k2 = k
    · subst h; simp [qsAppend, qsGet]
    · simp [qsAppend, qsGet, h, Ne.symm h]
  | cons hd tl ih =>
    rcases hd with ⟨k0, vs0⟩
    by_cases h0 : k0 = k
    · subst h0
      by_cases h2 : k2 = k0
      · subst h2; simp [qsAppend, qsGet]
      · simp [qsAppend, qsGet, h2, Ne.symm h2]
    · by_cases h2 : k2 = k0
      · subst h2
        simp [qsAppend, qsGet, h0, Ne.symm h0, ih]
      · simp [qsAppend, qsGet, h0, h2, Ne.symm h2, ih]

/-- Folding the `parse_qs` insertions over any accumulator dict: the final
lookup of `k` concatenates its accumulated values with all values of `k` in
the pairs, and is `None` exactly when both are empty. -/
lemma qsGet_foldl (pairs : List (String × String)) :
    ∀ (d : List (String × List String)) (k : String),
      qsGet (pairs.foldl (fun d nv => qsAppend d nv.1 nv.2) d) k =
        if qsGet d k = none ∧ qsAllVals pairs k = [] then none
        else some ((qsGet d k).getD [] ++ qsAllVals pairs k) := by
  induction pairs with
  | nil =>
    intro d k
    cases hq : qsGet d k <;> simp [qsAllVals, hq]
  | cons p rest ih =>
    intro d k
    rcases p with ⟨pk, pv⟩
    simp only [List.foldl_cons]
    rw [ih (qsAppend d pk pv) k]
    rw [qsGet_qsAppend]
    by_cases hk : k = pk
    · subst hk
      have hv : qsAllVals ((k, pv) :: rest) k = pv :: qsAllVals rest k := by
        simp [qsAllVals]
      rw [hv]
      simp only [if_pos rfl]
      cases qsGet d k <;> simp
    · have hv : qsAllVals ((pk, pv) :: rest) k = qsAllVals rest k := by
        simp [qsAllVals, Ne.symm hk]
      rw [hv, if_neg hk]

/-- The dict built by `parse_qs` maps `k` to exactly the ordered list of all
values of `k` among the parsed pairs, and has no entry when there are none. -/
lemma qsGet_parse_qs (pairs : List (String × String)) (k : String) :
    qsGet (parse_qs_from_pairs pairs) k =
      if qsAllVals pairs k = [] then none else some (qsAllVals pairs k) := by
  unfold parse_qs_from_pairs
  rw [qsGet_foldl]
  simp [qsGet]

/-- C8: for every DSN-only specification (no structured host) whose query
string parses strictly, the resolver builds the address from the **last**
occurrence of the `host` parameter and the **last** occurrence of the `port`
parameter. -/
theorem C8_thm (spec : PgConSpec) (d : String) (pairs : List (String × String))
    (hostVal portVal : String)
    (hh : spec.host = none) (hd : spec.dsn = some d)
    (hp : parse_qsl_strict (urlsplitQuery d) = .ok pairs)
    (hhost : (qsAllVals pairs "host").getLast? = some hostVal)
    (hport : (qsAllVals pairs "port").getLast? = some portVal) :
    _get_pgaddr spec = .ok (posixpath_join2 hostVal (".s.PGSQL." ++ portVal)) := by
  rcases spec with ⟨host, port, dsn⟩
  simp only at hh hd
  subst hh
  subst hd
  show pgaddrFromDsn d = _
  have hne1 : ¬ qsAllVals pairs "host" = [] := by
    intro h0; rw [h0] at hhost; simp at hhost
  have hne2 : ¬ qsAllVals pairs "port" = [] := by
    intro h0; rw [h0] at hport; simp at hport
  have e1 : qsGet (parse_qs_from_pairs pairs) "host" = some (qsAllVals pairs "host") := by
    rw [qsGet_parse_qs, if_neg hne1]
  have e2 : qsGet (parse_qs_from_pairs pairs) "port" = some (qsAllVals pairs "port") := by
    rw [qsGet_parse_qs, if_neg hne2]
  unfold pgaddrFromDsn
  rw [hp]
  simp only [e1, e2, hhost, hport]

/-- Witness for C8 at a DSN whose query string repeats both `host` and
`port`: the last occurrences win. -/
theorem C8_witness :
    _get_pgaddr { host := none, port := none,
                  dsn := some "pq:///?host=/run/a&port=1&host=/run/b&port=2" } =
      .ok (posixpath_join2 "/run/b" (".s.PGSQL." ++ "2")) :=
  C8_thm { host := none, port := none,
           dsn := some "pq:///?host=/run/a&port=1&host=/run/b&port=2" }
    "pq:///?host=/run/a&port=1&host=/run/b&port=2"
    [("host", "/run/a"), ("port", "1"), ("host", "/run/b"), ("port", "2")]
    "/run/b" "2" rfl rfl (by decide) (by decide) (by decide)

/-! ### C3 -/

/-- One `parse_qsl` step either raises the strict-mode `ValueError` itself or
passes an already-raised error through. -/
lemma parse_qsl_step_good (acc : Except PyErr (List (String × String)))
    (nv : List Char) (e : PyErr) (he : parse_qsl_step acc nv = .error e) :
    (∃ m, e = PyErr.valueError m) ∨ acc = .error e := by
  cases acc with
  | error e0 => exact Or.inr he
  | ok r =>
    left
    cases hsf : splitFirstCharList '=' nv with
    | none =>
      have h2 : parse_qsl_step (.ok r) nv =
          .error (.valueError ("bad query field: " ++ String.mk nv)) := by
        simp [parse_qsl_step, hsf]
      rw [h2] at he
      exact ⟨_, (Except.error.inj he).symm⟩
    | some p =>
      rcases p with ⟨n, v⟩
      exfalso
      by_cases hv : v = []
      · have h2 : parse_qsl_step (.ok r) nv = .ok r := by
          simp [parse_qsl_step, hsf, hv]
        rw [h2] at he
        exact Except.noConfusion he
      · have h2 : parse_qsl_step (.ok r) nv =
            .ok (r ++ [(pyUnquote (String.mk (plusToSpace n)),
                        pyUnquote (String.mk (plusToSpace v)))]) := by
          simp [parse_qsl_step, hsf, hv]
        rw [h2] at he
        exact Except.noConfusion he

/-- Folding the `parse_qsl` steps can only produce `ValueError` errors, given
an accumulator with the same property. -/
lemma parse_qsl_foldl_good (l : List (List Char)) :
    ∀ (acc : Except PyErr (List (String × String))),
      (∀ e, acc = .error e → ∃ m, e = PyErr.valueError m) →
      ∀ e, l.foldl parse_qsl_step acc = .error e → ∃ m, e = PyErr.valueError m := by
  induction l with
  | nil => intro acc h e he; exact h e he
  | cons nv rest ih =>
    intro acc h e he
    refine ih (parse_qsl_step acc nv) ?_ e he
    intro e2 he2
    rcases parse_qsl_step_good acc nv e2 he2 with hval | hacc
    · exact hval
    · exact h e2 hacc

/-- Strict query-string parsing fails only with `ValueError`. -/
lemma parse_qsl_strict_error_shape (qs : String) (e : PyErr)
    (he : parse_qsl_strict qs = .error e) : ∃ m, e = PyErr.valueError m :=
  parse_qsl_foldl_good _ (.ok []) (fun _ he2 => Except.noConfusion he2) e he

/-- A key present in the `parse_qs` dict always carries at least one value
(`keep_blank_values=False` never stores an empty list). -/
lemma qsGet_parse_qs_nonempty {pairs : List (String × String)} {k : String}
    {vs : List String} (h : qsGet (parse_qs_from_pairs pairs) k = some vs) :
    vs ≠ [] := by
  rw [qsGet_parse_qs] at h
  by_cases h0 : qsAllVals pairs k = []
  · rw [if_pos h0] at h
    exact absurd h (by simp)
  · rw [if_neg h0] at h
    exact (Option.some.inj h) ▸ h0

/-- C3 counterexample: a specification with no structured host and a DSN
whose query string lacks a `host` parameter fails — but with `TypeError`
(from subscripting the `None` of the missing lookup), not with
`ConfigurationError` as the claim states. -/
theorem C3_counterexample :
    _get_pgaddr { host := none, port := none, dsn := some "pq:///?port=5432" } =
      .error .typeError ∧
    (Except.error PyErr.typeError : Except PyErr String) ≠
      .error .configurationError := by decide

/-- C3 (amended): a specification yielding no usable host or port fails, but
never with `ConfigurationError`: with no `host` key and no `dsn` key the
resolution raises `TypeError` (`os.path.join(None, ...)`); with a DSN whose
strict query parse fails, that `ValueError` propagates; with a DSN whose
parsed query lacks a `host` or `port` parameter, `TypeError` is raised
(`None[-1]`). In no case is `ConfigurationError` raised. -/
theorem C3_thm (spec : PgConSpec) :
    (spec.host = none → spec.dsn = none → _get_pgaddr spec = .error .typeError) ∧
    (∀ d, spec.host = none → spec.dsn = some d →
      (∀ e, parse_qsl_strict (urlsplitQuery d) = .error e →
          _get_pgaddr spec = .error e) ∧
      (∀ pairs, parse_qsl_strict (urlsplitQuery d) = .ok pairs →
          (qsGet (parse_qs_from_pairs pairs) "host" = none ∨
           qsGet (parse_qs_from_pairs pairs) "port" = none) →
          _get_pgaddr spec = .error .typeError)) ∧
    _get_pgaddr spec ≠ .error .configurationError := by
  rcases spec with ⟨host, port, dsn⟩
  refine ⟨?_, ?_, ?_⟩
  · intro h1 h2
    obtain rfl : host = none := h1
    obtain rfl : dsn = none := h2
    rfl
  · intro d h1 h2
    obtain rfl : host = none := h1
    obtain rfl : dsn = some d := h2
    constructor
    · intro e he
      show pgaddrFromDsn d = _
      unfold pgaddrFromDsn
      rw [he]
    · intro pairs hp hnone
      show pgaddrFromDsn d = _
      unfold pgaddrFromDsn
      rw [hp]
      rcases hnone with hno | hno
      · simp only [hno]
      · cases hg : qsGet (parse_qs_from_pairs pairs) "host" with
        | none => simp only [hg]
        | some hs =>
          have hne := qsGet_parse_qs_nonempty hg
          cases hl : hs.getLast? with
          | none => exact absurd (List.getLast?_eq_none_iff.1 hl) hne
          | some x => simp only [hg, hl, hno]
  · cases host with
    | some h => simp [_get_pgaddr]
    | none =>
      cases dsn with
      | none => simp [_get_pgaddr]
      | some d =>
        show pgaddrFromDsn d ≠ _
        unfold pgaddrFromDsn
        cases hq : parse_qsl_strict (urlsplitQuery d) with
        | error e =>
          rcases parse_qsl_strict_error_shape _ _ hq with ⟨m, rfl⟩
          simp [hq]
        | ok pairs =>
          cases hg : qsGet (parse_qs_from_pairs pairs) "host" with
          | none => simp [hq, hg]
          | some hs =>
            cases hl : hs.getLast? with
            | none => simp [hq, hg, hl]
            | some x =>
              cases hg2 : qsGet (parse_qs_from_pairs pairs) "port" with
              | none => simp [hq, hg, hl, hg2]
              | some ps =>
                cases hl2 : ps.getLast? with
                | none => simp [hq, hg, hl, hg2, hl2]
                | some y => simp [hq, hg, hl, hg2, hl2]

/-- Witness for C3 (amended): a host-less, DSN-less specification raises
`TypeError`, and a DSN with a strictly-malformed query field (no `=`) raises
the strict-mode `ValueError`. -/
theorem C3_witness :
    _get_pgaddr { host := none, port := none, dsn := none } = .error .typeError ∧
    _get_pgaddr { host := none, port := none, dsn := some "pq:///?host=/a&bad" } =
      .error (.valueError "bad query field: bad") := by
  refine ⟨(C3_thm { host := none, port := none, dsn := none }).1 rfl rfl, ?_⟩
  exact ((C3_thm { host := none, port := none,
                   dsn := some "pq:///?host=/a&bad" }).2.1
      "pq:///?host=/a&bad" rfl rfl).1
    (.valueError "bad query field: bad") (by decide)
